import Mathlib

/-!
A shallow embedding of the `cosmwasm-1-to-2-transfer` contract
(`src/contract.rs`, `src/state.rs`, `src/msg.rs`) and proofs about its
transfer, withdraw and query operations.

Addresses are modelled as strings; `Uint128` values as `Nat` together with
an explicit bound check (`checked_add`) exactly where the source performs a
checked operation.  The address-validation collaborator
(`deps.api.addr_validate`) is a parameter `validAddr : String → Bool`; a
valid string validates to itself.  The balance map (`BALANCES : Map<Addr,
Uint128>`) is an association list with unique keys, accessed through
`hasKey` / `loadBal` / `saveBal` / `removeBal`, mirroring the source's
`has` / `load` / `save` / `remove` calls.
-/

deriving instance DecidableEq for Except

namespace CosmwasmTransfer

/-- One attached coin: `cosmwasm_std::Coin { denom, amount }`. -/
structure Coin where
  denom : String
  amount : Nat
deriving DecidableEq, Repr

/-- From `state.rs`: singleton contract state `State { owner, send_fee }`. -/
structure State where
  owner : String
  send_fee : Nat
deriving DecidableEq, Repr

/-- From `error.rs` (declared by `contract.rs` usages): `Unauthorized`,
`CustomError { val }`, and the `Std` conversion used by the `?` operator on
`addr_validate`. -/
inductive ContractError where
  | Unauthorized : ContractError
  | CustomError : String → ContractError
  | Std : String → ContractError
deriving DecidableEq, Repr

/-- An outbound-payment instruction `BankMsg::Send { to_address, amount }`
with its single-denomination coin list flattened. -/
structure BankSend where
  to_address : String
  amount : Nat
  denom : String
deriving DecidableEq, Repr

/-- The parts of `cosmwasm_std::Response` the contract produces. -/
structure Response where
  messages : List BankSend
  attributes : List (String × String)
deriving DecidableEq, Repr

/-- The `BALANCES` table: association list from address to balance. -/
abbrev Balances := List (String × Nat)

/-- Models `BALANCES.has(storage, addr)`. -/
def hasKey : Balances → String → Bool
  | [], _ => false
  | (k, _) :: rest, a => k == a || hasKey rest a

/-- Models `BALANCES.load(storage, addr)`; the source only calls it after `has`,
so the default for a missing key is irrelevant (we use 0). -/
def loadBal : Balances → String → Nat
  | [], _ => 0
  | (k, v) :: rest, a => if k == a then v else loadBal rest a

/-- Models `BALANCES.save(storage, addr, v)`: overwrite or append. -/
def saveBal : Balances → String → Nat → Balances
  | [], a, v => [(a, v)]
  | (k, w) :: rest, a, v =>
    if k == a then (a, v) :: rest else (k, w) :: saveBal rest a v

/-- Models `BALANCES.remove(storage, addr)`. -/
def removeBal : Balances → String → Balances
  | [], _ => []
  | (k, w) :: rest, a =>
    if k == a then removeBal rest a else (k, w) :: removeBal rest a

/-- The balance an account effectively holds: 0 when absent
(this is exactly what `query_balance` computes after validation). -/
def balOf (b : Balances) (a : String) : Nat :=
  if hasKey b a then loadBal b a else 0

/-- Largest `Uint128` value. -/
def U128_MAX : Nat := 2 ^ 128 - 1

/-- Models `Uint128::checked_add`. -/
def checked_add (x y : Nat) : Option Nat :=
  if x + y ≤ U128_MAX then some (x + y) else none

/-- Models `deps.api.addr_validate`: the collaborator accepts or rejects a
string; a valid string validates to itself. -/
def addr_validate (validAddr : String → Bool) (s : String) :
    Except ContractError String :=
  if validAddr s then .ok s else .error (.Std ("invalid address: " ++ s))

/-- One iteration of the credit loop of `execute_transfer`
(`contract.rs` lines 118–140): validate the address, create the entry with
`half` if absent, otherwise checked-add `half`, removing the entry if the
new balance is zero and saving it otherwise. -/
def credit_account (validAddr : String → Bool) (b : Balances) (half : Nat)
    (account : String) : Except ContractError Balances :=
  match addr_validate validAddr account with
  | .error e => .error e
  | .ok addr =>
    if !(hasKey b addr) then
      .ok (saveBal b addr half)
    else
      let balance := loadBal b addr
      match checked_add balance half with
      | none => .error (.CustomError "balance overflow occured")
      | some new_balance =>
        if new_balance == 0 then .ok (removeBal b addr)
        else .ok (saveBal b addr new_balance)

/-- Models `execute_transfer` (`contract.rs` lines 60–153): validate the attached
funds, compute `half`, credit each recipient in order (the source's
two-element loop unrolled), and emit the fee payout to the owner. -/
def execute_transfer (validAddr : String → Bool) (state : State)
    (b : Balances) (funds : List Coin) (recipient_a recipient_b : String) :
    Except ContractError (Balances × Response) :=
  match funds with
  | [] => .error (.CustomError "please send usei")
  | c :: rest =>
    if rest.length != 0 then
      .error (.CustomError "please only send usei")
    else if c.denom != "usei" then
      .error (.CustomError
        ("invalid denomination " ++ c.denom ++ ". please send usei"))
    else if c.amount ≤ state.send_fee then
      .error (.CustomError "funds <= fee")
    else
      let to_send := c.amount - state.send_fee
      if to_send % 2 != 0 then
        .error (.CustomError
          ("invalid funds. please send an even number of usei + a fee of "
            ++ toString state.send_fee))
      else
        let half := to_send / 2
        match credit_account validAddr b half recipient_a with
        | .error e => .error e
        | .ok b1 =>
          match credit_account validAddr b1 half recipient_b with
          | .error e => .error e
          | .ok b2 =>
            .ok (b2,
              { messages := [⟨state.owner, state.send_fee, "usei"⟩],
                attributes := [("action", "transfer"),
                               ("recipient_a", toString half),
                               ("recipient_b", toString half)] })

/-- Models `execute_withdraw` (`contract.rs` lines 155–189): reject attached
funds, require an existing entry, require `amount ≤ balance`, save the
reduced balance, and emit the outbound payment to the sender. -/
def execute_withdraw (b : Balances) (funds : List Coin) (sender : String)
    (amount : Nat) : Except ContractError (Balances × Response) :=
  if !funds.isEmpty then
    .error (.CustomError "no funds required")
  else if !(hasKey b sender) then
    .error .Unauthorized
  else
    let balance := loadBal b sender
    if amount > balance then
      .error (.CustomError "insufficient funds")
    else
      let new_balance := balance - amount
      .ok (saveBal b sender new_balance,
        { messages := [⟨sender, amount, "usei"⟩],
          attributes := [("action", "withdraw")] })

/-- Models `query_balance` (`contract.rs` lines 212–222): validate the account,
then return its entry's value, or zero when absent. -/
def query_balance (validAddr : String → Bool) (b : Balances)
    (account : String) : Except ContractError Nat :=
  match addr_validate validAddr account with
  | .error e => .error e
  | .ok addr => .ok (if hasKey b addr then loadBal b addr else 0)

/-- The two state-mutating messages of `ExecuteMsg` together with the
out-of-band data the entry point passes along (`info.funds`,
`info.sender`). -/
inductive Msg where
  | Transfer : List Coin → String → String → Msg
  | Withdraw : List Coin → String → Nat → Msg
deriving DecidableEq, Repr

/-- The `execute` entry point's dispatch (`contract.rs` lines 44–58),
with the message's out-of-band data attached. -/
def execMsg (validAddr : String → Bool) (state : State) (b : Balances) :
    Msg → Except ContractError (Balances × Response)
  | .Transfer funds ra rb => execute_transfer validAddr state b funds ra rb
  | .Withdraw funds sender amount => execute_withdraw b funds sender amount

/-- Modelled from the spec: the hosting execution environment applies each
call transactionally — on an `Ok` return the mutated balance table is
committed, and "if the operation returns any error, every ledger mutation
attempted during that call is discarded atomically".  This host commit
rule is not part of `src/`; it is the spec's §5 contract of the excluded
collaborator.  `stepLedger` is the balance table later calls observe. -/
def stepLedger (validAddr : String → Bool) (state : State) (b : Balances)
    (m : Msg) : Balances :=
  match execMsg validAddr state b m with
  | .ok (b2, _) => b2
  | .error _ => b

/-- Run a sequence of messages from a balance table. `instantiate` never
writes `BALANCES`, so the table at initialization is empty and reachable
states are `runLedger validAddr state [] msgs`. -/
def runLedger (validAddr : String → Bool) (state : State) (b : Balances) :
    List Msg → Balances
  | [] => b
  | m :: ms => runLedger validAddr state (stepLedger validAddr state b m) ms

/-- Every entry of the table holds a non-zero balance. -/
def allNonzero (b : Balances) : Bool :=
  b.all (fun p => p.2 != 0)

/-- A trace consisting of transfer calls only. -/
def isTransferOnly : List Msg → Bool
  | [] => true
  | .Transfer _ _ _ :: ms => isTransferOnly ms
  | .Withdraw _ _ _ :: _ => false

/-- The withdraw failure rule as the spec states it: non-empty attached
funds, then missing entry, then amount above balance, first failure
winning. -/
def withdrawFailSpec (b : Balances) (funds : List Coin) (sender : String)
    (amount : Nat) : Option ContractError :=
  if !funds.isEmpty then some (.CustomError "no funds required")
  else if !(hasKey b sender) then some .Unauthorized
  else if loadBal b sender < amount then
    some (.CustomError "insufficient funds")
  else none

/-- The transfer failure rule exactly as claim C4 orders it: one ordered
check list in which *every* recipient-identifier check precedes *any*
overflow check. -/
def transferFailClaimOrder (validAddr : String → Bool) (st : State)
    (b : Balances) (funds : List Coin) (ra rb : String) :
    Option ContractError :=
  match funds with
  | [] => some (.CustomError "please send usei")
  | c :: rest =>
    if rest.length != 0 then some (.CustomError "please only send usei")
    else if c.denom != "usei" then
      some (.CustomError
        ("invalid denomination " ++ c.denom ++ ". please send usei"))
    else if c.amount ≤ st.send_fee then some (.CustomError "funds <= fee")
    else if (c.amount - st.send_fee) % 2 != 0 then
      some (.CustomError
        ("invalid funds. please send an even number of usei + a fee of "
          ++ toString st.send_fee))
    else if !(validAddr ra) then some (.Std ("invalid address: " ++ ra))
    else if !(validAddr rb) then some (.Std ("invalid address: " ++ rb))
    else
      if hasKey b ra &&
          decide (U128_MAX < loadBal b ra + (c.amount - st.send_fee) / 2)
        then some (.CustomError "balance overflow occured")
      else if hasKey (saveBal b ra
            (balOf b ra + (c.amount - st.send_fee) / 2)) rb &&
          decide (U128_MAX <
            loadBal (saveBal b ra
              (balOf b ra + (c.amount - st.send_fee) / 2)) rb +
            (c.amount - st.send_fee) / 2)
        then some (.CustomError "balance overflow occured")
      else none

/-- The transfer failure rule as the code orders it (amended claim C4):
the five funds checks in order, then recipient_a is address-checked and
credited, and only then is recipient_b address-checked and credited. -/
def transferFailAmended (validAddr : String → Bool) (st : State)
    (b : Balances) (funds : List Coin) (ra rb : String) :
    Option ContractError :=
  match funds with
  | [] => some (.CustomError "please send usei")
  | c :: rest =>
    if rest.length != 0 then some (.CustomError "please only send usei")
    else if c.denom != "usei" then
      some (.CustomError
        ("invalid denomination " ++ c.denom ++ ". please send usei"))
    else if c.amount ≤ st.send_fee then some (.CustomError "funds <= fee")
    else if (c.amount - st.send_fee) % 2 != 0 then
      some (.CustomError
        ("invalid funds. please send an even number of usei + a fee of "
          ++ toString st.send_fee))
    else if !(validAddr ra) then some (.Std ("invalid address: " ++ ra))
    else if hasKey b ra &&
        decide (U128_MAX < loadBal b ra + (c.amount - st.send_fee) / 2)
      then some (.CustomError "balance overflow occured")
    else if !(validAddr rb) then some (.Std ("invalid address: " ++ rb))
    else if hasKey (saveBal b ra
          (balOf b ra + (c.amount - st.send_fee) / 2)) rb &&
        decide (U128_MAX <
          loadBal (saveBal b ra
            (balOf b ra + (c.amount - st.send_fee) / 2)) rb +
          (c.amount - st.send_fee) / 2)
      then some (.CustomError "balance overflow occured")
    else none

/-- The credit-loop body with the zero-balance removal branch deleted:
a successful checked addition is always saved. -/
def credit_account_total (validAddr : String → Bool) (b : Balances)
    (half : Nat) (account : String) : Except ContractError Balances :=
  match addr_validate validAddr account with
  | .error e => .error e
  | .ok addr =>
    if !(hasKey b addr) then
      .ok (saveBal b addr half)
    else
      let balance := loadBal b addr
      match checked_add balance half with
      | none => .error (.CustomError "balance overflow occured")
      | some new_balance => .ok (saveBal b addr new_balance)

/-- Variant of `execute_transfer` with the credit loop's removal branch deleted. -/
def execute_transfer_noRemove (validAddr : String → Bool) (state : State)
    (b : Balances) (funds : List Coin) (recipient_a recipient_b : String) :
    Except ContractError (Balances × Response) :=
  match funds with
  | [] => .error (.CustomError "please send usei")
  | c :: rest =>
    if rest.length != 0 then
      .error (.CustomError "please only send usei")
    else if c.denom != "usei" then
      .error (.CustomError
        ("invalid denomination " ++ c.denom ++ ". please send usei"))
    else if c.amount ≤ state.send_fee then
      .error (.CustomError "funds <= fee")
    else
      let to_send := c.amount - state.send_fee
      if to_send % 2 != 0 then
        .error (.CustomError
          ("invalid funds. please send an even number of usei + a fee of "
            ++ toString state.send_fee))
      else
        let half := to_send / 2
        match credit_account_total validAddr b half recipient_a with
        | .error e => .error e
        | .ok b1 =>
          match credit_account_total validAddr b1 half recipient_b with
          | .error e => .error e
          | .ok b2 =>
            .ok (b2,
              { messages := [⟨state.owner, state.send_fee, "usei"⟩],
                attributes := [("action", "transfer"),
                               ("recipient_a", toString half),
                               ("recipient_b", toString half)] })

/-! ### Lemmas about the balance table -/

theorem hasKey_saveBal_self (b : Balances) (a : String) (v : Nat) :
    hasKey (saveBal b a v) a = true := by
  induction b with
  | nil => simp [saveBal, hasKey]
  | cons p rest ih =>
    obtain ⟨k, w⟩ := p
    by_cases hk : k = a
    · simp [saveBal, hasKey, hk]
    · simp [saveBal, hasKey, hk, ih]

theorem loadBal_saveBal_self (b : Balances) (a : String) (v : Nat) :
    loadBal (saveBal b a v) a = v := by
  induction b with
  | nil => simp [saveBal, loadBal]
  | cons p rest ih =>
    obtain ⟨k, w⟩ := p
    by_cases hk : k = a
    · simp [saveBal, loadBal, hk]
    · simp [saveBal, loadBal, hk, ih]

theorem hasKey_saveBal_ne (b : Balances) (a x : String) (v : Nat)
    (h : a ≠ x) : hasKey (saveBal b a v) x = hasKey b x := by
  induction b with
  | nil => simp [saveBal, hasKey, h]
  | cons p rest ih =>
    obtain ⟨k, w⟩ := p
    by_cases hk : k = a
    · subst hk
      simp [saveBal, hasKey, h]
    · simp [saveBal, hasKey, hk, ih]

theorem loadBal_saveBal_ne (b : Balances) (a x : String) (v : Nat)
    (h : a ≠ x) : loadBal (saveBal b a v) x = loadBal b x := by
  induction b with
  | nil => simp [saveBal, loadBal, h]
  | cons p rest ih =>
    obtain ⟨k, w⟩ := p
    by_cases hk : k = a
    · subst hk
      simp [saveBal, loadBal, h]
    · simp [saveBal, loadBal, hk, ih]

theorem balOf_saveBal_self (b : Balances) (a : String) (v : Nat) :
    balOf (saveBal b a v) a = v := by
  simp [balOf, hasKey_saveBal_self, loadBal_saveBal_self]

theorem balOf_saveBal_ne (b : Balances) (a x : String) (v : Nat)
    (h : a ≠ x) : balOf (saveBal b a v) x = balOf b x := by
  simp [balOf, hasKey_saveBal_ne b a x v h, loadBal_saveBal_ne b a x v h]

theorem balOf_eq_loadBal (b : Balances) (a : String)
    (h : hasKey b a = true) : balOf b a = loadBal b a := by
  simp [balOf, h]

/-- Re-saving the value an existing entry already holds leaves the table
unchanged. -/
theorem saveBal_loadBal_self (b : Balances) (a : String)
    (h : hasKey b a = true) : saveBal b a (loadBal b a) = b := by
  induction b with
  | nil => simp [hasKey] at h
  | cons p rest ih =>
    obtain ⟨k, w⟩ := p
    by_cases hk : k = a
    · subst hk
      simp [saveBal, loadBal]
    · have hrest : hasKey rest a = true := by
        simpa [hasKey, hk] using h
      simp [saveBal, loadBal, hk, ih hrest]

theorem mem_saveBal (b : Balances) (a : String) (v : Nat)
    (p : String × Nat) (hp : p ∈ saveBal b a v) : p = (a, v) ∨ p ∈ b := by
  induction b with
  | nil => simpa [saveBal] using hp
  | cons q rest ih =>
    obtain ⟨k, w⟩ := q
    by_cases hk : k = a
    · rcases (by simpa [saveBal, hk] using hp : p = (a, v) ∨ p ∈ rest) with
        h | h
      · exact Or.inl h
      · exact Or.inr (List.mem_cons_of_mem _ h)
    · rcases (by simpa [saveBal, hk] using hp :
          p = (k, w) ∨ p ∈ saveBal rest a v) with h | h
      · exact Or.inr (by simp [h])
      · rcases ih h with h' | h'
        · exact Or.inl h'
        · exact Or.inr (List.mem_cons_of_mem _ h')

/-! ### Lemmas about the credit loop -/

/-- Validation guarantees a strictly positive half: the deposited amount
strictly exceeds the fee and the remainder is even. -/
theorem half_pos (amount fee : Nat) (h1 : fee < amount)
    (h2 : (amount - fee) % 2 = 0) : 1 ≤ (amount - fee) / 2 := by
  omega

/-- Closed form of one credit-loop iteration when `half ≥ 1` (which holds
whenever `execute_transfer`'s validation passed): the removal branch is
dead and a successful credit is exactly `saveBal` of the old balance plus
`half`. -/
theorem credit_account_eqn (validAddr : String → Bool) (b : Balances)
    (half : Nat) (a : String) (hh : 1 ≤ half) :
    credit_account validAddr b half a =
      if !(validAddr a) then .error (.Std ("invalid address: " ++ a))
      else if hasKey b a && decide (U128_MAX < loadBal b a + half) then
        .error (.CustomError "balance overflow occured")
      else .ok (saveBal b a (balOf b a + half)) := by
  by_cases hv : validAddr a
  · by_cases hk : hasKey b a
    · by_cases ho : U128_MAX < loadBal b a + half
      · simp [credit_account, addr_validate, checked_add, hv, hk, ho,
          Nat.not_le_of_lt ho]
      · have hne : ¬ loadBal b a + half = 0 := by omega
        simp [credit_account, addr_validate, checked_add, hv, hk, ho,
          Nat.le_of_not_lt ho, hne, balOf]
    · simp [credit_account, addr_validate, hv, hk, balOf]
  · simp [credit_account, addr_validate, hv]

/-- Reduction of `execute_transfer` on a single coin that passes the funds validation,
reduced to the two credit-loop iterations. -/
theorem execute_transfer_eqn (validAddr : String → Bool) (st : State)
    (b : Balances) (c : Coin) (ra rb : String)
    (hd : c.denom = "usei") (hf : st.send_fee < c.amount)
    (he : (c.amount - st.send_fee) % 2 = 0) :
    execute_transfer validAddr st b [c] ra rb =
      match credit_account validAddr b ((c.amount - st.send_fee) / 2) ra with
      | .error e => .error e
      | .ok b1 =>
        match credit_account validAddr b1 ((c.amount - st.send_fee) / 2) rb
          with
        | .error e => .error e
        | .ok b2 =>
          .ok (b2,
            { messages := [⟨st.owner, st.send_fee, "usei"⟩],
              attributes := [("action", "transfer"),
                ("recipient_a", toString ((c.amount - st.send_fee) / 2)),
                ("recipient_b", toString ((c.amount - st.send_fee) / 2))] })
    := by
  simp [execute_transfer, hd, he, Nat.not_le_of_lt hf]

/-- Everything a successful transfer of one coin implies: the validation
facts, and the closed form of the final balance table and response. -/
theorem execute_transfer_ok (validAddr : String → Bool) (st : State)
    (b : Balances) (c : Coin) (ra rb : String) (b' : Balances)
    (r : Response)
    (hok : execute_transfer validAddr st b [c] ra rb = .ok (b', r)) :
    c.denom = "usei" ∧ st.send_fee < c.amount ∧
    (c.amount - st.send_fee) % 2 = 0 ∧
    validAddr ra = true ∧ validAddr rb = true ∧
    b' = saveBal (saveBal b ra (balOf b ra + (c.amount - st.send_fee) / 2))
          rb
          (balOf (saveBal b ra (balOf b ra + (c.amount - st.send_fee) / 2))
            rb + (c.amount - st.send_fee) / 2) ∧
    r = { messages := [⟨st.owner, st.send_fee, "usei"⟩],
          attributes := [("action", "transfer"),
            ("recipient_a", toString ((c.amount - st.send_fee) / 2)),
            ("recipient_b", toString ((c.amount - st.send_fee) / 2))] } := by
  by_cases hd : c.denom = "usei"
  · by_cases hf : st.send_fee < c.amount
    · by_cases he : (c.amount - st.send_fee) % 2 = 0
      · have hh : 1 ≤ (c.amount - st.send_fee) / 2 :=
          half_pos c.amount st.send_fee hf he
        rw [execute_transfer_eqn validAddr st b c ra rb hd hf he] at hok
        rw [credit_account_eqn validAddr b _ ra hh] at hok
        by_cases hva : validAddr ra
        · by_cases hoa : (hasKey b ra &&
              decide (U128_MAX < loadBal b ra +
                (c.amount - st.send_fee) / 2)) = true
          · simp [hva, hoa] at hok
          · simp only [hva, hoa, Bool.not_true, Bool.false_eq_true,
              if_false, if_true, Bool.not_false] at hok
            rw [credit_account_eqn validAddr _ _ rb hh] at hok
            by_cases hvb : validAddr rb
            · by_cases hob : (hasKey
                  (saveBal b ra (balOf b ra + (c.amount - st.send_fee) / 2))
                  rb &&
                decide (U128_MAX < loadBal
                  (saveBal b ra (balOf b ra + (c.amount - st.send_fee) / 2))
                  rb + (c.amount - st.send_fee) / 2)) = true
              · simp [hvb, hob] at hok
              · simp only [hvb, hob, Bool.not_true, Bool.false_eq_true,
                  if_false, if_true, Bool.not_false] at hok
                obtain ⟨rfl, rfl⟩ :=
                  Prod.mk.injEq _ _ _ _ ▸ Except.ok.inj hok
                exact ⟨hd, hf, he, hva, hvb, rfl, rfl⟩
            · simp [hvb] at hok
        · simp [hva] at hok
      · have he1 : (c.amount - st.send_fee) % 2 = 1 := by omega
        simp [execute_transfer, hd, he1, Nat.not_le_of_lt hf] at hok
    · simp [execute_transfer, hd, Nat.not_lt.mp hf] at hok
  · simp [execute_transfer, hd] at hok

/-- A transfer succeeds only on a single-coin funds list. -/
theorem execute_transfer_ok_funds (validAddr : String → Bool) (st : State)
    (b : Balances) (funds : List Coin) (ra rb : String) (b' : Balances)
    (r : Response)
    (hok : execute_transfer validAddr st b funds ra rb = .ok (b', r)) :
    ∃ c, funds = [c] := by
  match funds with
  | [] => simp [execute_transfer] at hok
  | [c] => exact ⟨c, rfl⟩
  | c :: d :: rest => simp [execute_transfer] at hok

theorem allNonzero_saveBal (b : Balances) (a : String) (v : Nat)
    (hb : allNonzero b = true) (hv : v ≠ 0) :
    allNonzero (saveBal b a v) = true := by
  rw [allNonzero, List.all_eq_true]
  intro p hp
  rcases mem_saveBal b a v p hp with h | h
  · simp [h, hv]
  · exact (List.all_eq_true.mp hb) p h

/-- A successful transfer preserves the all-entries-non-zero property. -/
theorem allNonzero_execute_transfer (validAddr : String → Bool) (st : State)
    (b : Balances) (funds : List Coin) (ra rb : String) (b' : Balances)
    (r : Response)
    (hok : execute_transfer validAddr st b funds ra rb = .ok (b', r))
    (hb : allNonzero b = true) : allNonzero b' = true := by
  obtain ⟨c, rfl⟩ :=
    execute_transfer_ok_funds validAddr st b funds ra rb b' r hok
  obtain ⟨_, hf, he, _, _, hb', _⟩ :=
    execute_transfer_ok validAddr st b c ra rb b' r hok
  have hh : 1 ≤ (c.amount - st.send_fee) / 2 :=
    half_pos c.amount st.send_fee hf he
  subst hb'
  apply allNonzero_saveBal
  · exact allNonzero_saveBal b ra _ hb (by omega)
  · omega

/-- The all-entries-non-zero property is an inductive invariant of
transfer-only traces, from any table that satisfies it. -/
theorem runLedger_transferOnly_allNonzero (validAddr : String → Bool)
    (st : State) (msgs : List Msg) :
    ∀ b, allNonzero b = true → isTransferOnly msgs = true →
      allNonzero (runLedger validAddr st b msgs) = true := by
  induction msgs with
  | nil =>
    intro b hb _
    simpa [runLedger] using hb
  | cons m ms ih =>
    intro b hb hms
    match m with
    | .Transfer funds ra rb =>
      have hms' : isTransferOnly ms = true := by
        simpa [isTransferOnly] using hms
      rw [runLedger]
      apply ih _ _ hms'
      rw [stepLedger]
      cases hexec : execMsg validAddr st b (.Transfer funds ra rb) with
      | error e => simpa using hb
      | ok p =>
        exact allNonzero_execute_transfer validAddr st b funds ra rb p.1 p.2
          (by simpa [execMsg] using hexec) hb
    | .Withdraw funds sender amount => simp [isTransferOnly] at hms

/-! ### Claims -/

/-- Claim C1, counterexample. — A successful withdrawal that brings a
non-owner account's balance to exactly zero does *not* remove the ledger
entry: the account `"a"` (distinct from the owner `"creator"`) withdraws
its entire balance of 2, the call succeeds, and a subsequent lookup still
finds an entry for `"a"`. -/
theorem c1_entry_not_removed_cex :
    execute_withdraw [("a", 2)] [] "a" 2 =
      .ok ([("a", 0)],
        { messages := [⟨"a", 2, "usei"⟩],
          attributes := [("action", "withdraw")] }) ∧
    hasKey [("a", 0)] "a" = true ∧ ("a" : String) ≠ "creator" := by
  decide

/-- Claim C1 (amended). — After a successful withdrawal that brings an
account's balance to exactly zero (owner or not), the ledger entry is
*retained* with balance zero: a subsequent lookup still finds the entry,
and `get_balance` returns zero. -/
theorem c1_withdraw_to_zero_keeps_entry (b b' : Balances) (sender : String)
    (amount : Nat) (r : Response)
    (hok : execute_withdraw b [] sender amount = .ok (b', r))
    (hall : amount = loadBal b sender) :
    hasKey b' sender = true ∧ loadBal b' sender = 0 ∧
    query_balance (fun _ => true) b' sender = .ok 0 := by
  subst hall
  by_cases hk : hasKey b sender
  · have hstep : execute_withdraw b [] sender (loadBal b sender) =
        .ok (saveBal b sender 0,
          { messages := [⟨sender, loadBal b sender, "usei"⟩],
            attributes := [("action", "withdraw")] }) := by
      simp [execute_withdraw, hk, Nat.sub_self]
    rw [hstep] at hok
    obtain ⟨rfl, rfl⟩ := Prod.mk.injEq _ _ _ _ ▸ Except.ok.inj hok
    refine ⟨hasKey_saveBal_self b sender 0,
      loadBal_saveBal_self b sender 0, ?_⟩
    simp [query_balance, addr_validate, hasKey_saveBal_self,
      loadBal_saveBal_self]
  · simp [execute_withdraw, hk] at hok

/-- Witness for C1 (amended) at the concrete input of the counterexample
scenario. -/
theorem c1_witness :
    hasKey [("a", 0)] "a" = true ∧ loadBal [("a", 0)] "a" = 0 ∧
    query_balance (fun _ => true) [("a", 0)] "a" = .ok 0 :=
  c1_withdraw_to_zero_keeps_entry [("a", 2)] [("a", 0)] "a" 2
    { messages := [⟨"a", 2, "usei"⟩], attributes := [("action", "withdraw")] }
    (by decide) (by decide)

/-- Claim C2, counterexample. — A state with a zero-balance entry for a
non-owner account is reachable from initialization (empty table) by a
transfer followed by a withdraw: with fee 1, transfer 3 usei to
(`"a"`, `"a"`) credits `"a"` with 2, then `"a"` withdraws 2, leaving the
entry `("a", 0)` present in the table while `"a"` is not the owner. -/
theorem c2_zero_entry_reachable_cex :
    runLedger (fun _ => true) ⟨"creator", 1⟩ []
        [Msg.Transfer [⟨"usei", 3⟩] "a" "a", Msg.Withdraw [] "a" 2]
      = [("a", 0)] ∧
    hasKey [("a", 0)] "a" = true ∧ loadBal [("a", 0)] "a" = 0 ∧
    ("a" : String) ≠ "creator" := by
  decide

/-- Claim C2 (amended). — In every state reachable from initialization by
transfers alone, every present ledger entry has a non-zero balance; the
exception is not the owner but withdrawal, which retains a zero-balance
entry for *any* account that withdraws its full balance. -/
theorem c2_transfer_only_nonzero (validAddr : String → Bool) (st : State)
    (msgs : List Msg) (h : isTransferOnly msgs = true) :
    allNonzero (runLedger validAddr st [] msgs) = true :=
  runLedger_transferOnly_allNonzero validAddr st msgs [] rfl h

/-- Witness for C2 (amended) on a concrete transfer-only trace. -/
theorem c2_witness :
    isTransferOnly [Msg.Transfer [⟨"usei", 7⟩] "b" "c"] = true ∧
    allNonzero (runLedger (fun _ => true) ⟨"creator", 1⟩ []
      [Msg.Transfer [⟨"usei", 7⟩] "b" "c"]) = true :=
  ⟨by decide, c2_transfer_only_nonzero (fun _ => true) ⟨"creator", 1⟩
    [Msg.Transfer [⟨"usei", 7⟩] "b" "c"] (by decide)⟩

/-- Claim C3. — For every transfer that succeeds, the two credited
half-amounts plus the fee equal the deposited amount, and the fee leaves
the ledger through the single outbound payout to the owner. -/
theorem c3_conservation (validAddr : String → Bool) (st : State)
    (b : Balances) (c : Coin) (ra rb : String) (b' : Balances)
    (r : Response)
    (hok : execute_transfer validAddr st b [c] ra rb = .ok (b', r)) :
    c.denom = "usei" ∧
    (c.amount - st.send_fee) / 2 + (c.amount - st.send_fee) / 2 +
      st.send_fee = c.amount ∧
    r.messages = [⟨st.owner, st.send_fee, "usei"⟩] := by
  obtain ⟨hd, hf, he, _, _, _, hr⟩ :=
    execute_transfer_ok validAddr st b c ra rb b' r hok
  exact ⟨hd, by omega, by rw [hr]⟩

/-- Witness for C3: fee 1, deposit 7 to `"b"` and `"c"`. -/
theorem c3_witness :
    (Coin.mk "usei" 7).denom = "usei" ∧
    ((Coin.mk "usei" 7).amount - (State.mk "creator" 1).send_fee) / 2 +
      ((Coin.mk "usei" 7).amount - (State.mk "creator" 1).send_fee) / 2 +
      (State.mk "creator" 1).send_fee = (Coin.mk "usei" 7).amount ∧
    (Response.mk [⟨"creator", 1, "usei"⟩]
        [("action", "transfer"), ("recipient_a", "3"),
         ("recipient_b", "3")]).messages =
      [⟨(State.mk "creator" 1).owner, (State.mk "creator" 1).send_fee,
        "usei"⟩] :=
  c3_conservation (fun _ => true) (State.mk "creator" 1) []
    (Coin.mk "usei" 7) "b" "c" [("b", 3), ("c", 3)]
    (Response.mk [⟨"creator", 1, "usei"⟩]
      [("action", "transfer"), ("recipient_a", "3"), ("recipient_b", "3")])
    (by decide)

/-- Claim C10. — For an account with an existing ledger entry, a withdrawal of
amount 0 with no attached payment succeeds, leaves the balance table
entirely unchanged (the entry is kept with its balance), and emits an
outbound payment of amount 0 to the requesting account. -/
theorem c10_zero_withdraw (b : Balances) (sender : String)
    (h : hasKey b sender = true) :
    execute_withdraw b [] sender 0 =
      .ok (b, { messages := [⟨sender, 0, "usei"⟩],
                attributes := [("action", "withdraw")] }) := by
  have hsave : saveBal b sender (loadBal b sender) = b :=
    saveBal_loadBal_self b sender h
  simp [execute_withdraw, h, hsave]

/-- Witness for C10 at a concrete table. -/
theorem c10_witness :
    execute_withdraw [("a", 3)] [] "a" 0 =
      .ok ([("a", 3)], { messages := [⟨"a", 0, "usei"⟩],
                         attributes := [("action", "withdraw")] }) :=
  c10_zero_withdraw [("a", 3)] "a" (by decide)

/-- Claim C5. — Each of the two named recipients of a successful transfer is
credited by exactly `half = (amount - send_fee) / 2` (entry created on
first credit), and when the two recipients coincide the single account is
credited twice, by the full `amount - send_fee`. -/
theorem c5_recipients_credited (validAddr : String → Bool) (st : State)
    (b : Balances) (c : Coin) (ra rb : String) (b' : Balances)
    (r : Response)
    (hok : execute_transfer validAddr st b [c] ra rb = .ok (b', r)) :
    hasKey b' ra = true ∧ hasKey b' rb = true ∧
    (if ra = rb then
       balOf b' ra = balOf b ra + 2 * ((c.amount - st.send_fee) / 2)
     else
       balOf b' ra = balOf b ra + (c.amount - st.send_fee) / 2 ∧
       balOf b' rb = balOf b rb + (c.amount - st.send_fee) / 2) := by
  obtain ⟨hd, hf, he, hva, hvb, hb', hr⟩ :=
    execute_transfer_ok validAddr st b c ra rb b' r hok
  subst hb'
  by_cases hab : ra = rb
  · subst hab
    refine ⟨hasKey_saveBal_self _ _ _, hasKey_saveBal_self _ _ _, ?_⟩
    rw [if_pos rfl, balOf_saveBal_self, balOf_saveBal_self]
    omega
  · refine ⟨?_, hasKey_saveBal_self _ _ _, ?_⟩
    · rw [hasKey_saveBal_ne _ rb ra _ (fun hh => hab hh.symm)]
      exact hasKey_saveBal_self _ _ _
    · simp only [if_neg hab]
      constructor
      · rw [balOf_saveBal_ne _ rb ra _ (fun hh => hab hh.symm),
          balOf_saveBal_self]
      · rw [balOf_saveBal_self, balOf_saveBal_ne _ ra rb _ hab]

/-- Witness for C5, spec Scenario 1: fee 1, deposit 3 to the same account
twice; its balance becomes 2. -/
theorem c5_witness :
    hasKey [("A", 2)] "A" = true ∧ hasKey [("A", 2)] "A" = true ∧
    (if ("A" : String) = "A" then
       balOf [("A", 2)] "A" = balOf ([] : Balances) "A" +
         2 * (((Coin.mk "usei" 3).amount -
           (State.mk "creator" 1).send_fee) / 2)
     else
       balOf [("A", 2)] "A" = balOf ([] : Balances) "A" +
         ((Coin.mk "usei" 3).amount - (State.mk "creator" 1).send_fee) / 2 ∧
       balOf [("A", 2)] "A" = balOf ([] : Balances) "A" +
         ((Coin.mk "usei" 3).amount - (State.mk "creator" 1).send_fee) / 2)
    :=
  c5_recipients_credited (fun _ => true) (State.mk "creator" 1) []
    (Coin.mk "usei" 3) "A" "A" [("A", 2)]
    (Response.mk [⟨"creator", 1, "usei"⟩]
      [("action", "transfer"), ("recipient_a", "1"), ("recipient_b", "1")])
    (by decide)

/-- Claim C6. — Withdraw fails exactly on the spec's three conditions, checked
in the spec's order (non-empty attached funds, then missing entry reported
as `Unauthorized`, then amount above balance), and otherwise debits the
account by the amount and emits the outbound payment of that amount to the
requesting account. -/
theorem c6_withdraw_characterization (b : Balances) (funds : List Coin)
    (sender : String) (amount : Nat) :
    (∀ e, execute_withdraw b funds sender amount = .error e ↔
      withdrawFailSpec b funds sender amount = some e) ∧
    (withdrawFailSpec b funds sender amount = none →
      execute_withdraw b funds sender amount =
        .ok (saveBal b sender (loadBal b sender - amount),
          { messages := [⟨sender, amount, "usei"⟩],
            attributes := [("action", "withdraw")] })) := by
  by_cases hf : funds.isEmpty = true
  · by_cases hk : hasKey b sender
    · by_cases ha : loadBal b sender < amount
      · constructor
        · intro e
          simp [execute_withdraw, withdrawFailSpec, hf, hk, ha]
        · intro hn
          simp [withdrawFailSpec, hf, hk, ha] at hn
      · constructor
        · intro e
          simp [execute_withdraw, withdrawFailSpec, hf, hk, ha]
        · intro _
          simp [execute_withdraw, hf, hk, ha]
    · constructor
      · intro e
        simp [execute_withdraw, withdrawFailSpec, hf, hk]
      · intro hn
        simp [withdrawFailSpec, hf, hk] at hn
  · constructor
    · intro e
      simp [execute_withdraw, withdrawFailSpec, hf]
    · intro hn
      simp [withdrawFailSpec, hf] at hn

/-- Witness for C6: balance 3, withdraw 2 succeeds with the expected debit
and payment. -/
theorem c6_witness :
    execute_withdraw [("a", 3)] [] "a" 2 =
      .ok (saveBal [("a", 3)] "a" (loadBal [("a", 3)] "a" - 2),
        { messages := [⟨"a", 2, "usei"⟩],
          attributes := [("action", "withdraw")] }) :=
  (c6_withdraw_characterization [("a", 3)] [] "a" 2).2 (by decide)

/-- Claim C7. — Every successful transfer emits exactly one
outbound-payment instruction, moving `send_fee` usei to the owner's
address, and — provided the owner is neither of the two recipients — the
owner's ledger entry (presence and balance) is unchanged by the call. -/
theorem c7_fee_payout (validAddr : String → Bool) (st : State)
    (b : Balances) (c : Coin) (ra rb : String) (b' : Balances)
    (r : Response)
    (hok : execute_transfer validAddr st b [c] ra rb = .ok (b', r)) :
    r.messages = [⟨st.owner, st.send_fee, "usei"⟩] ∧
    (st.owner ≠ ra → st.owner ≠ rb →
      balOf b' st.owner = balOf b st.owner ∧
      hasKey b' st.owner = hasKey b st.owner) := by
  obtain ⟨hd, hf, he, hva, hvb, hb', hr⟩ :=
    execute_transfer_ok validAddr st b c ra rb b' r hok
  subst hb'
  refine ⟨by rw [hr], fun hna hnb => ⟨?_, ?_⟩⟩
  · rw [balOf_saveBal_ne _ rb st.owner _ (Ne.symm hnb),
      balOf_saveBal_ne _ ra st.owner _ (Ne.symm hna)]
  · rw [hasKey_saveBal_ne _ rb st.owner _ (Ne.symm hnb),
      hasKey_saveBal_ne _ ra st.owner _ (Ne.symm hna)]

/-- Witness for C7: fee 1, deposit 7 to `"b"` and `"c"`, owner
`"creator"`, with the owner-not-a-recipient implications also discharged
concretely. -/
theorem c7_witness :
    (Response.mk [⟨"creator", 1, "usei"⟩]
        [("action", "transfer"), ("recipient_a", "3"),
         ("recipient_b", "3")]).messages =
      [⟨(State.mk "creator" 1).owner, (State.mk "creator" 1).send_fee,
        "usei"⟩] ∧
    balOf [("b", 3), ("c", 3)] (State.mk "creator" 1).owner =
      balOf ([] : Balances) (State.mk "creator" 1).owner ∧
    hasKey [("b", 3), ("c", 3)] (State.mk "creator" 1).owner =
      hasKey ([] : Balances) (State.mk "creator" 1).owner := by
  have h := c7_fee_payout (fun _ => true) (State.mk "creator" 1) []
    (Coin.mk "usei" 7) "b" "c" [("b", 3), ("c", 3)]
    (Response.mk [⟨"creator", 1, "usei"⟩]
      [("action", "transfer"), ("recipient_a", "3"), ("recipient_b", "3")])
    (by decide)
  exact ⟨h.1, (h.2 (by decide) (by decide)).1, (h.2 (by decide) (by decide)).2⟩

/-- Claim C8. — Any transfer or withdraw call that returns an error leaves the
balance table observed by later calls exactly as it was before the call
(host transactional commit, modelled from the spec in `stepLedger`); the
witness instantiates this at a credit overflow that occurs after the first
recipient of the same call was already credited. -/
theorem c8_error_leaves_state (validAddr : String → Bool) (st : State)
    (b : Balances) (m : Msg) (e : ContractError)
    (h : execMsg validAddr st b m = .error e) :
    stepLedger validAddr st b m = b := by
  simp [stepLedger, h]

/-- Witness for C8: the table holds `("b", U128_MAX)`; transferring 3 usei
to `"a"` and `"b"` credits `"a"` first, then overflows on `"b"`, and the
observed table is unchanged. -/
theorem c8_witness :
    execMsg (fun _ => true) (State.mk "creator" 1) [("b", U128_MAX)]
        (Msg.Transfer [⟨"usei", 3⟩] "a" "b")
      = .error (.CustomError "balance overflow occured") ∧
    stepLedger (fun _ => true) (State.mk "creator" 1) [("b", U128_MAX)]
        (Msg.Transfer [⟨"usei", 3⟩] "a" "b")
      = [("b", U128_MAX)] :=
  ⟨by decide,
    c8_error_leaves_state (fun _ => true) (State.mk "creator" 1)
      [("b", U128_MAX)] (Msg.Transfer [⟨"usei", 3⟩] "a" "b")
      (.CustomError "balance overflow occured") (by decide)⟩

/-- Whenever `half ≥ 1`, the credit-loop body never takes its removal
branch: it equals the variant that always saves. -/
theorem credit_account_total_eq (validAddr : String → Bool) (b : Balances)
    (half : Nat) (a : String) (hh : 1 ≤ half) :
    credit_account validAddr b half a =
      credit_account_total validAddr b half a := by
  by_cases hv : validAddr a
  · by_cases hk : hasKey b a
    · by_cases ho : loadBal b a + half ≤ U128_MAX
      · have hne : ¬ loadBal b a + half = 0 := by omega
        simp [credit_account, credit_account_total, addr_validate,
          checked_add, hv, hk, ho, hne]
      · simp [credit_account, credit_account_total, addr_validate,
          checked_add, hv, hk, ho]
    · simp [credit_account, credit_account_total, addr_validate, hv, hk]
  · simp [credit_account, credit_account_total, addr_validate, hv]

/-- Claim C9. — The zero-balance removal branch inside the transfer credit
loop is dead code: `execute_transfer` coincides, on every input, with the
variant whose credit loop always saves the newly computed balance — after
validation `half ≥ 1`, so every balance a successful credit writes is at
least 1. -/
theorem c9_remove_branch_dead (validAddr : String → Bool) (st : State)
    (b : Balances) (funds : List Coin) (ra rb : String) :
    execute_transfer validAddr st b funds ra rb =
      execute_transfer_noRemove validAddr st b funds ra rb := by
  match funds with
  | [] => rfl
  | c :: rest =>
    by_cases h1 : rest.length = 0
    · by_cases h2 : c.denom = "usei"
      · by_cases h3 : st.send_fee < c.amount
        · by_cases h4 : (c.amount - st.send_fee) % 2 = 0
          · have hh : 1 ≤ (c.amount - st.send_fee) / 2 :=
              half_pos c.amount st.send_fee h3 h4
            simp only [execute_transfer, execute_transfer_noRemove, h1, h2,
              h4, Nat.not_le_of_lt h3, if_false, bne_self_eq_false,
              Bool.false_eq_true, ite_false, ite_true]
            rw [credit_account_total_eq validAddr b _ ra hh]
            cases hca : credit_account_total validAddr b
                ((c.amount - st.send_fee) / 2) ra with
            | error e => simp [hca]
            | ok b1 =>
              simp only [hca]
              rw [credit_account_total_eq validAddr b1 _ rb hh]
          · have h4' : (c.amount - st.send_fee) % 2 = 1 := by omega
            simp [execute_transfer, execute_transfer_noRemove, h1, h2, h4',
              Nat.not_le_of_lt h3]
        · simp [execute_transfer, execute_transfer_noRemove, h1, h2,
            Nat.not_lt.mp h3]
      · simp [execute_transfer, execute_transfer_noRemove, h1, h2]
    · simp [execute_transfer, execute_transfer_noRemove, h1]

/-- Claim C4, counterexample. — The claimed check order (every
recipient-identifier check before any overflow check) is violated: with
fee 1, a table holding `("a", U128_MAX)`, deposit 3 usei, recipient_a
`"a"` (valid, overflowing) and recipient_b `"bad"` (malformed), the code
reports the overflow, while the claim's ordered check list reports the
malformed identifier — two different errors. -/
theorem c4_check_order_cex :
    execute_transfer (fun s => !(s == "bad")) (State.mk "creator" 1)
        [("a", U128_MAX)] [⟨"usei", 3⟩] "a" "bad"
      = .error (.CustomError "balance overflow occured") ∧
    transferFailClaimOrder (fun s => !(s == "bad")) (State.mk "creator" 1)
        [("a", U128_MAX)] [⟨"usei", 3⟩] "a" "bad"
      = some (.Std ("invalid address: bad")) ∧
    ContractError.CustomError "balance overflow occured" ≠
      ContractError.Std ("invalid address: bad") := by
  decide

/-- Claim C4 (amended). — Transfer fails if and only if one of the claim's
conditions holds, with checks 1–5 in the claimed order, but the two
recipients processed one after the other: recipient_a's identifier check
and checked credit happen before recipient_b's identifier is examined
(`transferFailAmended` is that order, and it returns exactly the error
`execute_transfer` reports). -/
theorem c4_failure_characterization (validAddr : String → Bool)
    (st : State) (b : Balances) (funds : List Coin) (ra rb : String)
    (e : ContractError) :
    execute_transfer validAddr st b funds ra rb = .error e ↔
      transferFailAmended validAddr st b funds ra rb = some e := by
  match funds with
  | [] => simp [execute_transfer, transferFailAmended]
  | c :: rest =>
    by_cases h1 : rest.length = 0
    · by_cases h2 : c.denom = "usei"
      · by_cases h3 : st.send_fee < c.amount
        · by_cases h4 : (c.amount - st.send_fee) % 2 = 0
          · have hh : 1 ≤ (c.amount - st.send_fee) / 2 :=
              half_pos c.amount st.send_fee h3 h4
            have hrest : rest = [] := List.length_eq_zero.mp h1
            subst hrest
            rw [execute_transfer_eqn validAddr st b c ra rb h2 h3 h4]
            rw [credit_account_eqn validAddr b _ ra hh]
            by_cases hva : validAddr ra
            · by_cases hoa : (hasKey b ra && decide (U128_MAX <
                  loadBal b ra + (c.amount - st.send_fee) / 2)) = true
              · simp [transferFailAmended, h2, h4, Nat.not_le_of_lt h3,
                  hva, hoa]
              · simp only [hva, hoa, Bool.not_true, Bool.false_eq_true,
                  if_false, if_true, Bool.not_false]
                rw [credit_account_eqn validAddr _ _ rb hh]
                by_cases hvb : validAddr rb
                · by_cases hob : (hasKey (saveBal b ra (balOf b ra +
                      (c.amount - st.send_fee) / 2)) rb &&
                      decide (U128_MAX < loadBal (saveBal b ra
                        (balOf b ra + (c.amount - st.send_fee) / 2)) rb +
                        (c.amount - st.send_fee) / 2)) = true
                  · simp [transferFailAmended, h2, h4, Nat.not_le_of_lt h3,
                      hva, hoa, hvb, hob]
                  · simp [transferFailAmended, h2, h4, Nat.not_le_of_lt h3,
                      hva, hoa, hvb, hob]
                · simp [transferFailAmended, h2, h4, Nat.not_le_of_lt h3,
                    hva, hoa, hvb]
            · simp [transferFailAmended, h2, h4, Nat.not_le_of_lt h3, hva]
          · have h4' : (c.amount - st.send_fee) % 2 = 1 := by omega
            simp [execute_transfer, transferFailAmended, h1, h2, h4',
              Nat.not_le_of_lt h3]
        · simp [execute_transfer, transferFailAmended, h1, h2,
            Nat.not_lt.mp h3]
      · simp [execute_transfer, transferFailAmended, h1, h2]
    · simp [execute_transfer, transferFailAmended, h1]

end CosmwasmTransfer
